import Mathlib

/-!
Compressed-notes program: shallow embedding and verification.

This file embeds the Anchor program of src/programs/compressed-notes/src/lib.rs
(the compressed_notes module: create_note_tree, append_note, update_note,
the NoteLog event struct and the PDA seed material) and proves the spec's
claims about it.

Bytes are modelled as Fin 256, byte strings as lists of bytes.  The external
collaborators (SPL Account Compression tree engine, Noop log wrapper) are
modelled as oracles whose answers are given by an Engine record; each program
instruction returns its result together with the ordered trace of external
requests it issued, so ordering and abort properties can be stated directly.
The leaf hash is a genuine executable Keccak-256 (the hash behind
solana_program keccak hashv).
-/

namespace CompressedNotes

/-- A byte. -/
abbrev Byte := Fin 256

/-- A byte string (the bytes of a Rust String, a Pubkey, or a hash). -/
abbrev Bytes := List Byte

/-- A Solana public key: 32 bytes.  Well-formedness (length 32) is tracked by
hypotheses where it matters. -/
abbrev Pubkey := Bytes

/-!
Keccak-256: executable Keccak (original 0x01 domain padding, rate 136, as used
by solana_program keccak).  Lanes are 64-bit words represented as Nat values
reduced mod 2 to the 64.
-/

/-- Left rotation of a 64-bit lane. -/
def rotl64 (x n : Nat) : Nat :=
  ((x <<< n) ||| (x >>> (64 - n))) % (2 ^ 64)

/-- Complement of a 64-bit lane. -/
def comp64 (x : Nat) : Nat := x ^^^ (2 ^ 64 - 1)

/-- The 24 Keccak round constants (decimal values of the standard table,
rounds 0-23 in order, three per group). -/
def keccakRC : List Nat :=
  [1, 32898, 9223372036854808714] ++
  [9223372039002292224, 32907, 2147483649] ++
  [9223372039002292353, 9223372036854808585, 138] ++
  [136, 2147516425, 2147483658] ++
  [2147516555, 9223372036854775947, 9223372036854808713] ++
  [9223372036854808579, 9223372036854808578, 9223372036854775936] ++
  [32778, 9223372039002259466, 9223372039002292353] ++
  [9223372036854808704, 2147483649, 9223372039002292232]

/-- Rho rotation offsets, flattened by lane index x + 5 y, one group per
row y. -/
def rhoOffsets : List Nat :=
  [0, 1, 62, 28, 27] ++
  [36, 44, 6, 55, 20] ++
  [3, 10, 43, 25, 39] ++
  [41, 45, 15, 21, 8] ++
  [18, 2, 61, 56, 14]

/-- For each output lane of the combined rho-pi step, the source lane index,
one group per output row. -/
def piSource : List Nat :=
  [0, 6, 12, 18, 24] ++
  [3, 9, 10, 16, 22] ++
  [1, 7, 13, 19, 20] ++
  [4, 5, 11, 17, 23] ++
  [2, 8, 14, 15, 21]

/-- Theta step of the Keccak permutation. -/
def theta (S : List Nat) : List Nat :=
  let C := (List.range 5).map fun x =>
    (S.getD x 0) ^^^ (S.getD (x + 5) 0) ^^^ (S.getD (x + 10) 0) ^^^
    (S.getD (x + 15) 0) ^^^ (S.getD (x + 20) 0)
  let D := (List.range 5).map fun x =>
    (C.getD ((x + 4) % 5) 0) ^^^ rotl64 (C.getD ((x + 1) % 5) 0) 1
  (List.range 25).map fun i => (S.getD i 0) ^^^ (D.getD (i % 5) 0)

/-- Combined rho and pi steps of the Keccak permutation. -/
def rhoPi (S : List Nat) : List Nat :=
  (List.range 25).map fun j =>
    let src := piSource.getD j 0
    rotl64 (S.getD src 0) (rhoOffsets.getD src 0)

/-- Chi step of the Keccak permutation. -/
def chi (S : List Nat) : List Nat :=
  (List.range 25).map fun i =>
    let x := i % 5
    let y := i - x
    (S.getD i 0) ^^^ ((comp64 (S.getD ((x + 1) % 5 + y) 0)) &&& (S.getD ((x + 2) % 5 + y) 0))

/-- Iota step of the Keccak permutation: xor the round constant into lane 0. -/
def iota (rc : Nat) (S : List Nat) : List Nat :=
  (List.range 25).map fun i => if i = 0 then (S.getD 0 0) ^^^ rc else S.getD i 0

/-- The Keccak-f[1600] permutation: 24 rounds. -/
def keccakF (S : List Nat) : List Nat :=
  keccakRC.foldl (fun s rc => iota rc (chi (rhoPi (theta s)))) S

/-- Little-endian decomposition of a number into k bytes. -/
def natToBytesLE : Nat → Nat → Bytes
  | 0, _ => []
  | k + 1, x => ⟨x % 256, by omega⟩ :: natToBytesLE k (x / 256)

/-- Number denoted by a little-endian byte string (first byte least
significant).  Used both for Keccak lanes and for Borsh u32 length fields. -/
def laneOfBytes (bs : Bytes) : Nat :=
  bs.foldr (fun b acc => acc * 256 + b.val) 0

/-- Xor a 136-byte rate block into the first 17 lanes of the state. -/
def xorBlock (S : List Nat) (block : Bytes) : List Nat :=
  (List.range 25).map fun i =>
    if i < 17 then (S.getD i 0) ^^^ laneOfBytes ((block.drop (8 * i)).take 8)
    else S.getD i 0

/-- Absorb n rate blocks of the (padded) message. -/
def absorbBlocks : Nat → List Nat → Bytes → List Nat
  | 0, S, _ => S
  | n + 1, S, msg => absorbBlocks n (keccakF (xorBlock S (msg.take 136))) (msg.drop 136)

/-- Multi-rate padding with domain byte 0x01 (legacy Keccak, rate 136). -/
def keccakPad (msg : Bytes) : Bytes :=
  let p := 136 - msg.length % 136
  if p = 1 then msg ++ [(0x81 : Byte)]
  else msg ++ (0x01 : Byte) :: List.replicate (p - 2) (0 : Byte) ++ [(0x80 : Byte)]

/-- Squeeze 32 output bytes: the first four lanes, little-endian. -/
def squeeze (S : List Nat) : Bytes :=
  natToBytesLE 8 (S.getD 0 0) ++ natToBytesLE 8 (S.getD 1 0) ++
  natToBytesLE 8 (S.getD 2 0) ++ natToBytesLE 8 (S.getD 3 0)

/-- Keccak-256 of a byte string. -/
def keccak256 (msg : Bytes) : Bytes :=
  let padded := keccakPad msg
  squeeze (absorbBlocks (padded.length / 136) (List.replicate 25 0) padded)

/-- Embedding of solana_program keccak hashv: the Keccak-256 hash of the
concatenation of the given byte slices. -/
def keccakHashv (vals : List Bytes) : Bytes :=
  keccak256 vals.flatten

/-!
The NoteLog event struct (lib.rs lines 100-124) and its Borsh
(AnchorSerialize / AnchorDeserialize) byte codec: a fixed 32-byte array, a
32-byte Pubkey, then the note string as a u32 little-endian byte length
followed by the raw bytes.
-/

/-- The NoteLog struct of lib.rs lines 100-109: leaf hash, owner key, and the
note content. -/
structure NoteLog where
  leaf_node : Bytes
  owner : Pubkey
  note : Bytes
  deriving DecidableEq

/-- Constructor used at the call sites NoteLog.new in append_note and
update_note; it builds the struct from its three fields, exactly as the
create_note_log helper of lib.rs lines 122-124 does. -/
def NoteLog.new (leaf_node : Bytes) (owner : Pubkey) (note : Bytes) : NoteLog :=
  { leaf_node := leaf_node, owner := owner, note := note }

/-- Borsh serialization of a NoteLog (derived AnchorSerialize, lib.rs line
100): raw 32 leaf bytes, raw 32 owner bytes, u32 LE note length, note bytes. -/
def NoteLog.serialize (x : NoteLog) : Bytes :=
  x.leaf_node ++ x.owner ++ natToBytesLE 4 x.note.length ++ x.note

/-- Read exactly n bytes from the front of a byte string, returning the rest;
fails when fewer than n bytes remain. -/
def readBytes (n : Nat) (bs : Bytes) : Option (Bytes × Bytes) :=
  if bs.length < n then none
  else some (bs.take n, bs.drop n)

/-- Borsh deserialization of a NoteLog (derived AnchorDeserialize, lib.rs line
100): 32 leaf bytes, 32 owner bytes, a 4-byte u32 LE length, then that many
note bytes. -/
def NoteLog.deserialize (bs : Bytes) : Option NoteLog :=
  match readBytes 32 bs with
  | none => none
  | some (leafNode, r1) =>
    match readBytes 32 r1 with
    | none => none
    | some (owner, r2) =>
      match readBytes 4 r2 with
      | none => none
      | some (lenBytes, r3) =>
        match readBytes (laneOfBytes lenBytes) r3 with
        | none => none
        | some (note, _) => some (NoteLog.new leafNode owner note)

/-!
Accounts, PDA seed material, and the external-call model.
-/

/-- The NoteAccounts context of lib.rs lines 125-153: the owner signer, the
tree-authority PDA, the Merkle tree account address, and the bump that Anchor
resolves for the tree-authority constraint (ctx.bumps). -/
structure NoteAccounts where
  owner : Pubkey
  treeAuthority : Pubkey
  merkleTree : Pubkey
  treeAuthorityBump : Byte

/-- Signer seeds built in create_note_tree (lib.rs lines 176-179): one signer
group holding the Merkle tree address and the tree-authority bump. -/
def createTreeSeeds (ctx : NoteAccounts) : List (List Bytes) :=
  [[ctx.merkleTree, [ctx.treeAuthorityBump]]]

/-- Signer seeds built in append_note (lib.rs lines 228-231). -/
def appendNoteSeeds (ctx : NoteAccounts) : List (List Bytes) :=
  [[ctx.merkleTree, [ctx.treeAuthorityBump]]]

/-- Signer seeds built in update_note (lib.rs lines 283-286). -/
def updateNoteSeeds (ctx : NoteAccounts) : List (List Bytes) :=
  [[ctx.merkleTree, [ctx.treeAuthorityBump]]]

/-- Leaf hash computed in append_note (lib.rs line 216): keccak hashv of the
note bytes followed by the owner key bytes. -/
def appendNoteLeaf (note : Bytes) (owner : Pubkey) : Bytes :=
  keccakHashv [note, owner]

/-- Leaf hash for the old note computed in update_note (lib.rs line 277). -/
def updateNoteOldLeaf (oldNote : Bytes) (owner : Pubkey) : Bytes :=
  keccakHashv [oldNote, owner]

/-- Leaf hash for the new note computed in update_note (lib.rs line 306). -/
def updateNoteNewLeaf (newNote : Bytes) (owner : Pubkey) : Bytes :=
  keccakHashv [newNote, owner]

/-- The NoteLog built in append_note (lib.rs line 219). -/
def appendNoteLog (ctx : NoteAccounts) (note : Bytes) : NoteLog :=
  NoteLog.new (appendNoteLeaf note ctx.owner) ctx.owner note

/-- The NoteLog built in update_note for the new note (lib.rs line 309). -/
def updateNoteLog (ctx : NoteAccounts) (newNote : Bytes) : NoteLog :=
  NoteLog.new (updateNoteNewLeaf newNote ctx.owner) ctx.owner newNote

/-- One external request issued by the program: a Noop log emission, or one of
the four SPL Account Compression CPIs.  Signed CPIs carry the authority
account and the signer seeds of their CpiContext. -/
inductive ExtCall where
  | emit (data : Bytes)
  | initTree (authority : Pubkey) (seeds : List (List Bytes)) (maxDepth maxBufferSize : Nat)
  | verifyLeaf (seeds : List (List Bytes)) (root leaf : Bytes) (index : Nat)
  | appendLeaf (authority : Pubkey) (seeds : List (List Bytes)) (leaf : Bytes)
  | replaceLeaf (authority : Pubkey) (seeds : List (List Bytes))
      (root oldLeaf newLeaf : Bytes) (index : Nat)
  deriving DecidableEq

/-- Whether an external call is a log emission. -/
def ExtCall.isEmit : ExtCall → Bool
  | .emit _ => true
  | _ => false

/-- Whether an external call mutates tree state (init, append or replace; the
leaf verification is read-only). -/
def ExtCall.isTreeMutation : ExtCall → Bool
  | .initTree _ _ _ _ => true
  | .appendLeaf _ _ _ => true
  | .replaceLeaf _ _ _ _ _ _ => true
  | _ => false

/-- Oracle answers of the external collaborators: the Noop log wrapper and the
four tree-engine operations, each succeeding or failing with an error of the
abstract error type. -/
structure Engine (ε : Type) where
  emitResult : Bytes → Except ε Unit
  initResult : Nat → Nat → Except ε Unit
  verifyResult : Bytes → Bytes → Nat → Except ε Unit
  appendResult : Bytes → Except ε Unit
  replaceResult : Bytes → Bytes → Bytes → Nat → Except ε Unit

/-!
The three program instructions.  Each returns its Result together with the
ordered list of external requests it issued (a request is recorded whether or
not the collaborator accepted it; after a failed request the instruction
returns that error at once, as the Rust question-mark operator does).
-/

/-- Embedding of create_note_tree (lib.rs lines 167-196): build the signer
seeds from the Merkle tree address and bump, then issue the
init_empty_merkle_tree CPI with the given depth and buffer size.  No local
validation is performed. -/
def create_note_tree {ε : Type} (eng : Engine ε) (ctx : NoteAccounts)
    (maxDepth maxBufferSize : Nat) : Except ε Unit × List ExtCall :=
  match eng.initResult maxDepth maxBufferSize with
  | .error e => (.error e,
      [.initTree ctx.treeAuthority (createTreeSeeds ctx) maxDepth maxBufferSize])
  | .ok _ => (.ok (),
      [.initTree ctx.treeAuthority (createTreeSeeds ctx) maxDepth maxBufferSize])

/-- Embedding of append_note (lib.rs lines 214-248): hash the note into a leaf
(line 216), build the NoteLog (line 219), emit its Borsh bytes through the
Noop wrapper (line 222), then issue the append CPI with the PDA signer seeds
(lines 225-245).  A failed emission aborts before the append CPI. -/
def append_note {ε : Type} (eng : Engine ε) (ctx : NoteAccounts) (note : Bytes) :
    Except ε Unit × List ExtCall :=
  match eng.emitResult (appendNoteLog ctx note).serialize with
  | .error e => (.error e, [.emit (appendNoteLog ctx note).serialize])
  | .ok _ =>
    match eng.appendResult (appendNoteLeaf note ctx.owner) with
    | .error e => (.error e,
        [.emit (appendNoteLog ctx note).serialize,
         .appendLeaf ctx.treeAuthority (appendNoteSeeds ctx) (appendNoteLeaf note ctx.owner)])
    | .ok _ => (.ok (),
        [.emit (appendNoteLog ctx note).serialize,
         .appendLeaf ctx.treeAuthority (appendNoteSeeds ctx) (appendNoteLeaf note ctx.owner)])

/-- Embedding of update_note (lib.rs lines 269-329).  Steps 1-3 of the source
(old-leaf hash, tree address, signer seeds) are pure and issue no request, so
the first observable gate is the step-4 equality check (lines 288-292), which
returns Ok with no external call when the notes are equal.  Otherwise: the
verify_leaf CPI (line 303), then the new-leaf hash (line 306), the NoteLog
emission (line 312), and the replace_leaf CPI (line 326), each aborting the
instruction on failure. -/
def update_note {ε : Type} (eng : Engine ε) (ctx : NoteAccounts) (index : Nat)
    (root : Bytes) (oldNote newNote : Bytes) : Except ε Unit × List ExtCall :=
  if oldNote = newNote then (.ok (), [])
  else
    match eng.verifyResult root (updateNoteOldLeaf oldNote ctx.owner) index with
    | .error e => (.error e,
        [.verifyLeaf (updateNoteSeeds ctx) root (updateNoteOldLeaf oldNote ctx.owner) index])
    | .ok _ =>
      match eng.emitResult (updateNoteLog ctx newNote).serialize with
      | .error e => (.error e,
          [.verifyLeaf (updateNoteSeeds ctx) root (updateNoteOldLeaf oldNote ctx.owner) index,
           .emit (updateNoteLog ctx newNote).serialize])
      | .ok _ =>
        match eng.replaceResult root (updateNoteOldLeaf oldNote ctx.owner)
            (updateNoteNewLeaf newNote ctx.owner) index with
        | .error e => (.error e,
            [.verifyLeaf (updateNoteSeeds ctx) root (updateNoteOldLeaf oldNote ctx.owner) index,
             .emit (updateNoteLog ctx newNote).serialize,
             .replaceLeaf ctx.treeAuthority (updateNoteSeeds ctx) root
               (updateNoteOldLeaf oldNote ctx.owner) (updateNoteNewLeaf newNote ctx.owner) index])
        | .ok _ => (.ok (),
            [.verifyLeaf (updateNoteSeeds ctx) root (updateNoteOldLeaf oldNote ctx.owner) index,
             .emit (updateNoteLog ctx newNote).serialize,
             .replaceLeaf ctx.treeAuthority (updateNoteSeeds ctx) root
               (updateNoteOldLeaf oldNote ctx.owner) (updateNoteNewLeaf newNote ctx.owner) index])

/-!
PDA derivation model.  Anchor's seeds-and-bump constraint on the tree
authority (lib.rs lines 134-138) checks that the account equals the program
derived address computed from the single seed that is the Merkle tree address,
with the canonical bump that Anchor stores in ctx.bumps.  The derivation
function of the host runtime is abstract here; what matters is that it is a
function of the seeds. -/

/-- Abstract host-runtime PDA derivation for this program: the derived address
and canonical bump for a given seed list. -/
structure PdaDerivation where
  address : List Bytes → Pubkey
  bumpOf : List Bytes → Byte

/-- The Anchor constraint of lib.rs lines 134-138: the tree authority is the
PDA derived from the Merkle tree address alone, and the bump recorded in
ctx.bumps is its canonical bump. -/
def NoteAccounts.wf (pda : PdaDerivation) (ctx : NoteAccounts) : Prop :=
  ctx.treeAuthority = pda.address [ctx.merkleTree] ∧
  ctx.treeAuthorityBump = pda.bumpOf [ctx.merkleTree]

/-- The spec's reference leaf definition, stated from the spec's words: the
32-byte Keccak-256 hash of the content bytes followed by the identity bytes. -/
def leafSpecHash (content identity : Bytes) : Bytes :=
  keccak256 (content ++ identity)

/-!
Concrete values used by witnesses and counterexamples.
-/

/-- Concrete owner key. -/
def pk1 : Pubkey := List.replicate 32 1

/-- Concrete tree-authority key. -/
def pk2 : Pubkey := List.replicate 32 2

/-- Concrete Merkle tree address. -/
def pk3 : Pubkey := List.replicate 32 3

/-- Concrete claimed root. -/
def root0 : Bytes := List.replicate 32 0

/-- Concrete account context. -/
def ctx0 : NoteAccounts :=
  { owner := pk1, treeAuthority := pk2, merkleTree := pk3, treeAuthorityBump := 255 }

/-- Concrete note content, the bytes of the string sa-me. -/
def sameBytes : Bytes := [115, 97, 109, 101]

/-- Concrete note content, the bytes of hi. -/
def note0 : Bytes := [104, 105]

/-- Concrete second note content, the bytes of yo. -/
def note1 : Bytes := [121, 111]

/-- Engine whose every collaborator succeeds. -/
def engineAllOk : Engine Unit :=
  ⟨fun _ => .ok (), fun _ _ => .ok (), fun _ _ _ => .ok (),
   fun _ => .ok (), fun _ _ _ _ => .ok ()⟩

/-- Engine whose every collaborator fails. -/
def engineAllFail : Engine Unit :=
  ⟨fun _ => .error (), fun _ _ => .error (), fun _ _ _ => .error (),
   fun _ => .error (), fun _ _ _ _ => .error ()⟩

/-- Engine whose leaf verification fails while everything else succeeds. -/
def engineVerifyFail : Engine Unit :=
  ⟨fun _ => .ok (), fun _ _ => .ok (), fun _ _ _ => .error (),
   fun _ => .ok (), fun _ _ _ _ => .ok ()⟩

/-- Concrete PDA derivation consistent with ctx0. -/
def pda0 : PdaDerivation :=
  ⟨fun _ => pk2, fun _ => 255⟩

/-!
Helper lemmas.
-/

/-- Little-endian byte decomposition produces exactly k bytes. -/
theorem natToBytesLE_length (k x : Nat) : (natToBytesLE k x).length = k := by
  induction k generalizing x with
  | zero => rfl
  | succ n ih => simp [natToBytesLE, ih]

/-- The number denoted by the 4-byte little-endian encoding of a number below
2 to the 32 is that number. -/
theorem laneOfBytes_natToBytesLE4 (n : Nat) (h : n < 2 ^ 32) :
    laneOfBytes (natToBytesLE 4 n) = n := by
  show (((0 * 256 + (n / 256 / 256 / 256) % 256) * 256 + (n / 256 / 256) % 256) * 256
      + (n / 256) % 256) * 256 + n % 256 = n
  omega

/-- Reading n bytes from a byte string that starts with an n-byte prefix
yields that prefix and the remainder. -/
theorem readBytes_append (n : Nat) (a b : Bytes) (h : a.length = n) :
    readBytes n (a ++ b) = some (a, b) := by
  subst h
  rw [readBytes, if_neg (by simp only [List.length_append]; omega),
    List.take_left, List.drop_left]

/-- Reading the whole byte string yields the string and an empty remainder. -/
theorem readBytes_self (l : Bytes) : readBytes l.length l = some (l, []) := by
  rw [readBytes, if_neg (by omega), List.take_length, List.drop_length]

/-- The squeeze phase produces exactly 32 bytes. -/
theorem squeeze_length (S : List Nat) : (squeeze S).length = 32 := by
  simp [squeeze, natToBytesLE_length]

/-- Keccak-256 always produces exactly 32 bytes. -/
theorem keccak256_length (msg : Bytes) : (keccak256 msg).length = 32 := by
  rw [keccak256]
  exact squeeze_length _

/-!
Claim theorems.
-/

/-- Claim C5 (confirmed): the leaf function is pure and deterministic and
equals the reference definition: it is the 32-byte Keccak-256 hash of the
content bytes followed by the identity bytes, and equal inputs always yield
equal leaves. -/
theorem leaf_matches_reference_and_deterministic
    (content identity content2 identity2 : Bytes)
    (hc : content = content2) (hi : identity = identity2) :
    appendNoteLeaf content identity = leafSpecHash content identity ∧
    (appendNoteLeaf content identity).length = 32 ∧
    appendNoteLeaf content identity = appendNoteLeaf content2 identity2 := by
  subst hc hi
  refine ⟨?_, ?_, rfl⟩
  · simp [appendNoteLeaf, keccakHashv, leafSpecHash]
  · simp [appendNoteLeaf, keccakHashv, keccak256_length]

/-- Witness for claim C5 at concrete content and identity. -/
theorem leaf_matches_reference_and_deterministic_witness :
    note0 = note0 ∧ pk1 = pk1 ∧
    (appendNoteLeaf note0 pk1 = leafSpecHash note0 pk1 ∧
     (appendNoteLeaf note0 pk1).length = 32 ∧
     appendNoteLeaf note0 pk1 = appendNoteLeaf note0 pk1) :=
  ⟨rfl, rfl, leaf_matches_reference_and_deterministic note0 pk1 note0 pk1 rfl rfl⟩

/-- Claim C6 (confirmed): the leaf computations of the append path, the
old-content path of update, and the new-content path of update are the same
function: on every content and identity all three produce the identical hash
of the identical input byte ordering, content bytes first. -/
theorem leaf_same_on_all_three_paths (content : Bytes) (identity : Pubkey) :
    appendNoteLeaf content identity = updateNoteOldLeaf content identity ∧
    updateNoteOldLeaf content identity = updateNoteNewLeaf content identity ∧
    appendNoteLeaf content identity = keccakHashv [content, identity] :=
  ⟨rfl, rfl, rfl⟩

/-- Claim C8 (confirmed): deserializing the serialized byte encoding of any
well-formed NoteLog (32-byte leaf, 32-byte owner, note shorter than 2 to the
32 bytes) yields the original value. -/
theorem noteLog_round_trip (x : NoteLog) (h1 : x.leaf_node.length = 32)
    (h2 : x.owner.length = 32) (h3 : x.note.length < 2 ^ 32) :
    NoteLog.deserialize (NoteLog.serialize x) = some x := by
  have e1 : NoteLog.serialize x
      = x.leaf_node ++ (x.owner ++ (natToBytesLE 4 x.note.length ++ x.note)) := by
    simp [NoteLog.serialize]
  simp only [NoteLog.deserialize, e1, readBytes_append 32 _ _ h1, readBytes_append 32 _ _ h2,
    readBytes_append 4 _ _ (natToBytesLE_length 4 _), laneOfBytes_natToBytesLE4 _ h3,
    readBytes_self]
  rfl

/-- Witness for claim C8 at a concrete NoteLog. -/
theorem noteLog_round_trip_witness :
    (NoteLog.new pk3 pk1 note0).leaf_node.length = 32 ∧
    (NoteLog.new pk3 pk1 note0).owner.length = 32 ∧
    (NoteLog.new pk3 pk1 note0).note.length < 2 ^ 32 ∧
    NoteLog.deserialize (NoteLog.serialize (NoteLog.new pk3 pk1 note0))
      = some (NoteLog.new pk3 pk1 note0) :=
  ⟨by decide, by decide, by decide,
   noteLog_round_trip (NoteLog.new pk3 pk1 note0) (by decide) (by decide) (by decide)⟩

/-- Claim C7 (confirmed): authority derivation is deterministic in the tree
handle address alone: under the Anchor seeds-and-bump constraint, any two
contexts with the same Merkle tree address carry the same tree authority, the
signer seed material is identical across create, append and update, and it is
computed only from the Merkle tree address and its bump. -/
theorem authority_derivation_deterministic (pda : PdaDerivation)
    (ctx ctx2 : NoteAccounts) (hw : ctx.wf pda) (hw2 : ctx2.wf pda)
    (hm : ctx.merkleTree = ctx2.merkleTree) :
    ctx.treeAuthority = ctx2.treeAuthority ∧
    ctx.treeAuthorityBump = ctx2.treeAuthorityBump ∧
    createTreeSeeds ctx = createTreeSeeds ctx2 ∧
    createTreeSeeds ctx = appendNoteSeeds ctx ∧
    appendNoteSeeds ctx = updateNoteSeeds ctx ∧
    createTreeSeeds ctx = [[ctx.merkleTree, [ctx.treeAuthorityBump]]] := by
  obtain ⟨ha, hb⟩ := hw
  obtain ⟨ha2, hb2⟩ := hw2
  refine ⟨?_, ?_, ?_, rfl, rfl, rfl⟩
  · rw [ha, ha2, hm]
  · rw [hb, hb2, hm]
  · simp [createTreeSeeds, hm, hb, hb2, hm]

/-- Witness for claim C7 at a concrete derivation and context. -/
theorem authority_derivation_deterministic_witness :
    ctx0.wf pda0 ∧ ctx0.merkleTree = ctx0.merkleTree ∧
    (ctx0.treeAuthority = ctx0.treeAuthority ∧
     ctx0.treeAuthorityBump = ctx0.treeAuthorityBump ∧
     createTreeSeeds ctx0 = createTreeSeeds ctx0 ∧
     createTreeSeeds ctx0 = appendNoteSeeds ctx0 ∧
     appendNoteSeeds ctx0 = updateNoteSeeds ctx0 ∧
     createTreeSeeds ctx0 = [[ctx0.merkleTree, [ctx0.treeAuthorityBump]]]) :=
  ⟨⟨rfl, rfl⟩, rfl,
   authority_derivation_deterministic pda0 ctx0 ctx0 ⟨rfl, rfl⟩ ⟨rfl, rfl⟩ rfl⟩

/-- Counterexample for claim C1: at identical old and new content, update_note
does not fail: even with every collaborator refusing, it returns Ok with an
empty request trace, so no IdenticalContent validation error is raised. -/
theorem update_note_identical_succeeds_counterexample :
    update_note engineAllFail ctx0 0 root0 sameBytes sameBytes
      = (Except.ok (), []) := by
  rfl

/-- Claim C1 as amended (corrected): on identical old and new content,
update_note short-circuits with success as a silent no-op: it returns Ok,
issues no external request at all (no verify, no replace), and emits no Log
Entry. -/
theorem update_note_identical_is_silent_noop {ε : Type} (eng : Engine ε)
    (ctx : NoteAccounts) (index : Nat) (root : Bytes) (oldNote newNote : Bytes)
    (h : oldNote = newNote) :
    update_note eng ctx index root oldNote newNote = (Except.ok (), []) := by
  subst h
  simp [update_note]

/-- Witness for amended claim C1 at concrete inputs. -/
theorem update_note_identical_is_silent_noop_witness :
    sameBytes = sameBytes ∧
    update_note engineAllOk ctx0 0 root0 sameBytes sameBytes = (Except.ok (), []) :=
  ⟨rfl, update_note_identical_is_silent_noop engineAllOk ctx0 0 root0 sameBytes sameBytes rfl⟩

/-- Counterexample for claim C2: create_note_tree with max_depth 2 and
max_buffer_size 64 does not fail with a validation error before an external
call: with an accepting engine it succeeds, and its trace shows the init
request was issued with exactly those unvalidated parameters. -/
theorem create_note_tree_no_validation_counterexample :
    create_note_tree engineAllOk ctx0 2 64
      = (Except.ok (), [ExtCall.initTree ctx0.treeAuthority (createTreeSeeds ctx0) 2 64]) := by
  rfl

/-- Claim C2 as amended (corrected): create_note_tree performs no parameter
validation at all: for every max_depth and max_buffer_size it issues exactly
one tree-engine init request carrying exactly those parameters and returns
the engine's own answer. -/
theorem create_note_tree_forwards_unvalidated {ε : Type} (eng : Engine ε)
    (ctx : NoteAccounts) (maxDepth maxBufferSize : Nat) :
    create_note_tree eng ctx maxDepth maxBufferSize
      = (eng.initResult maxDepth maxBufferSize,
         [ExtCall.initTree ctx.treeAuthority (createTreeSeeds ctx) maxDepth maxBufferSize]) := by
  unfold create_note_tree
  cases h : eng.initResult maxDepth maxBufferSize with
  | error e => simp
  | ok u => cases u; simp

/-- Claim C3 (confirmed): in every execution of append_note, any tree-mutating
request in the trace is strictly preceded by a log emission, and when the log
emission fails the instruction aborts with that error having issued only the
emission, never the append request. -/
theorem append_note_emits_log_before_mutation {ε : Type} (eng : Engine ε)
    (ctx : NoteAccounts) (note : Bytes) :
    (∀ i c, (append_note eng ctx note).2.get? i = some c → c.isTreeMutation = true →
      ∃ j d, j < i ∧ (append_note eng ctx note).2.get? j = some (ExtCall.emit d)) ∧
    (∀ e, eng.emitResult (appendNoteLog ctx note).serialize = Except.error e →
      append_note eng ctx note
        = (Except.error e, [ExtCall.emit (appendNoteLog ctx note).serialize])) := by
  cases hE : eng.emitResult (appendNoteLog ctx note).serialize with
  | error e =>
    have hU : append_note eng ctx note
        = (Except.error e, [ExtCall.emit (appendNoteLog ctx note).serialize]) := by
      simp [append_note, hE]
    refine ⟨?_, ?_⟩
    · intro i c hc hm
      rw [hU] at hc
      match i with
      | 0 =>
        simp at hc
        rw [← hc] at hm
        simp [ExtCall.isTreeMutation] at hm
      | n + 1 => simp at hc
    · intro e2 h2
      injection h2 with h
      rw [hU, h]
  | ok u =>
    cases u
    have ht : (append_note eng ctx note).2
        = [ExtCall.emit (appendNoteLog ctx note).serialize,
           ExtCall.appendLeaf ctx.treeAuthority (appendNoteSeeds ctx)
             (appendNoteLeaf note ctx.owner)] := by
      cases hA : eng.appendResult (appendNoteLeaf note ctx.owner) with
      | error e => simp [append_note, hE, hA]
      | ok v => cases v; simp [append_note, hE, hA]
    refine ⟨?_, ?_⟩
    · intro i c hc hm
      rw [ht] at hc
      match i with
      | 0 =>
        simp at hc
        rw [← hc] at hm
        simp [ExtCall.isTreeMutation] at hm
      | 1 =>
        refine ⟨0, (appendNoteLog ctx note).serialize, by omega, ?_⟩
        simp [ht]
      | n + 2 => simp at hc
    · intro e2 h2
      simp at h2

/-- Witness for claim C3: with an engine whose log wrapper refuses, append_note
aborts after the emission request alone. -/
theorem append_note_emits_log_before_mutation_witness :
    engineAllFail.emitResult (appendNoteLog ctx0 note0).serialize = Except.error () ∧
    append_note engineAllFail ctx0 note0
      = (Except.error (), [ExtCall.emit (appendNoteLog ctx0 note0).serialize]) :=
  ⟨rfl, (append_note_emits_log_before_mutation engineAllFail ctx0 note0).2 () rfl⟩

/-- Claim C4 (confirmed): in every update with distinct old and new content,
the read-only verify request is issued first; if it fails the instruction
returns that error having emitted no Log Entry and requested no mutation; and
any emission or replace request in the trace implies the verify succeeded. -/
theorem update_note_verify_gates_everything {ε : Type} (eng : Engine ε)
    (ctx : NoteAccounts) (index : Nat) (root oldNote newNote : Bytes)
    (hne : oldNote ≠ newNote) :
    (update_note eng ctx index root oldNote newNote).2.head?
        = some (ExtCall.verifyLeaf (updateNoteSeeds ctx) root
            (updateNoteOldLeaf oldNote ctx.owner) index) ∧
    (∀ e, eng.verifyResult root (updateNoteOldLeaf oldNote ctx.owner) index
        = Except.error e →
      update_note eng ctx index root oldNote newNote
        = (Except.error e, [ExtCall.verifyLeaf (updateNoteSeeds ctx) root
            (updateNoteOldLeaf oldNote ctx.owner) index])) ∧
    (∀ d, ExtCall.emit d ∈ (update_note eng ctx index root oldNote newNote).2 →
      eng.verifyResult root (updateNoteOldLeaf oldNote ctx.owner) index = Except.ok ()) ∧
    (∀ a s r o n i,
      ExtCall.replaceLeaf a s r o n i ∈ (update_note eng ctx index root oldNote newNote).2 →
      eng.verifyResult root (updateNoteOldLeaf oldNote ctx.owner) index = Except.ok ()) := by
  cases hV : eng.verifyResult root (updateNoteOldLeaf oldNote ctx.owner) index with
  | error e =>
    have hU : update_note eng ctx index root oldNote newNote
        = (Except.error e, [ExtCall.verifyLeaf (updateNoteSeeds ctx) root
            (updateNoteOldLeaf oldNote ctx.owner) index]) := by
      simp [update_note, hne, hV]
    refine ⟨by simp [hU], ?_, ?_, ?_⟩
    · intro e2 h2
      injection h2 with h
      rw [hU, h]
    · intro d hd
      rw [hU] at hd
      simp at hd
    · intro a s r o n i hr
      rw [hU] at hr
      simp at hr
  | ok u =>
    cases u
    have hhead : (update_note eng ctx index root oldNote newNote).2.head?
        = some (ExtCall.verifyLeaf (updateNoteSeeds ctx) root
            (updateNoteOldLeaf oldNote ctx.owner) index) := by
      cases hEm : eng.emitResult (updateNoteLog ctx newNote).serialize with
      | error e => simp [update_note, hne, hV, hEm]
      | ok v =>
        cases v
        cases hR : eng.replaceResult root (updateNoteOldLeaf oldNote ctx.owner)
            (updateNoteNewLeaf newNote ctx.owner) index with
        | error e2 => simp [update_note, hne, hV, hEm, hR]
        | ok w => cases w; simp [update_note, hne, hV, hEm, hR]
    refine ⟨hhead, ?_, fun _ _ => rfl, fun _ _ _ _ _ _ _ => rfl⟩
    intro e2 h2
    simp at h2

/-- Witness for claim C4: with an engine whose verification refuses, an update
of distinct contents returns the verify error having issued only the verify
request. -/
theorem update_note_verify_gates_everything_witness :
    note0 ≠ note1 ∧
    engineVerifyFail.verifyResult root0 (updateNoteOldLeaf note0 ctx0.owner) 0
      = Except.error () ∧
    update_note engineVerifyFail ctx0 0 root0 note0 note1
      = (Except.error (), [ExtCall.verifyLeaf (updateNoteSeeds ctx0) root0
          (updateNoteOldLeaf note0 ctx0.owner) 0]) :=
  ⟨by decide, rfl,
   (update_note_verify_gates_everything engineVerifyFail ctx0 0 root0 note0 note1
      (by decide)).2.1 () rfl⟩

/-- Claim C9 (confirmed): whenever append_note succeeds, its trace contains
exactly one log emission, carrying the serialized NoteLog whose leaf field is
the leaf hash of the appended content and owner identity. -/
theorem append_note_success_emits_exactly_one {ε : Type} (eng : Engine ε)
    (ctx : NoteAccounts) (note : Bytes)
    (h : (append_note eng ctx note).1 = Except.ok ()) :
    (append_note eng ctx note).2.filter ExtCall.isEmit
        = [ExtCall.emit (appendNoteLog ctx note).serialize] ∧
    (appendNoteLog ctx note).leaf_node = appendNoteLeaf note ctx.owner := by
  refine ⟨?_, rfl⟩
  cases hE : eng.emitResult (appendNoteLog ctx note).serialize with
  | error e =>
    have hf : (append_note eng ctx note).1 = Except.error e := by simp [append_note, hE]
    rw [hf] at h
    simp at h
  | ok u =>
    cases u
    cases hA : eng.appendResult (appendNoteLeaf note ctx.owner) with
    | error e =>
      have hf : (append_note eng ctx note).1 = Except.error e := by
        simp [append_note, hE, hA]
      rw [hf] at h
      simp at h
    | ok v =>
      cases v
      have ht : (append_note eng ctx note).2
          = [ExtCall.emit (appendNoteLog ctx note).serialize,
             ExtCall.appendLeaf ctx.treeAuthority (appendNoteSeeds ctx)
               (appendNoteLeaf note ctx.owner)] := by
        simp [append_note, hE, hA]
      rw [ht]
      simp [List.filter, ExtCall.isEmit]

/-- Witness for claim C9 on a successful concrete append. -/
theorem append_note_success_emits_exactly_one_witness :
    (append_note engineAllOk ctx0 note0).1 = Except.ok () ∧
    ((append_note engineAllOk ctx0 note0).2.filter ExtCall.isEmit
        = [ExtCall.emit (appendNoteLog ctx0 note0).serialize] ∧
     (appendNoteLog ctx0 note0).leaf_node = appendNoteLeaf note0 ctx0.owner) :=
  ⟨rfl, append_note_success_emits_exactly_one engineAllOk ctx0 note0 rfl⟩

/-- Claim C10 (confirmed): every Log Entry emitted by append_note or
update_note is self-verifying: the emitted bytes are the serialization of a
NoteLog whose leaf field is the keccak hash of its own note bytes followed by
its own owner bytes. -/
theorem emitted_entries_self_verifying {ε : Type} (eng : Engine ε)
    (ctx : NoteAccounts) (note : Bytes) (index : Nat)
    (root oldNote newNote : Bytes) (d : Bytes) :
    (ExtCall.emit d ∈ (append_note eng ctx note).2 →
      ∃ nl : NoteLog, d = NoteLog.serialize nl ∧
        nl.leaf_node = keccakHashv [nl.note, nl.owner]) ∧
    (ExtCall.emit d ∈ (update_note eng ctx index root oldNote newNote).2 →
      ∃ nl : NoteLog, d = NoteLog.serialize nl ∧
        nl.leaf_node = keccakHashv [nl.note, nl.owner]) := by
  constructor
  · intro hd
    cases hE : eng.emitResult (appendNoteLog ctx note).serialize with
    | error e =>
      have ht : (append_note eng ctx note).2
          = [ExtCall.emit (appendNoteLog ctx note).serialize] := by
        simp [append_note, hE]
      rw [ht] at hd
      simp at hd
      exact ⟨appendNoteLog ctx note, hd, rfl⟩
    | ok u =>
      cases u
      have ht : (append_note eng ctx note).2
          = [ExtCall.emit (appendNoteLog ctx note).serialize,
             ExtCall.appendLeaf ctx.treeAuthority (appendNoteSeeds ctx)
               (appendNoteLeaf note ctx.owner)] := by
        cases hA : eng.appendResult (appendNoteLeaf note ctx.owner) with
        | error e => simp [append_note, hE, hA]
        | ok v => cases v; simp [append_note, hE, hA]
      rw [ht] at hd
      simp at hd
      exact ⟨appendNoteLog ctx note, hd, rfl⟩
  · intro hd
    by_cases hEq : oldNote = newNote
    · simp [update_note, hEq] at hd
    · cases hV : eng.verifyResult root (updateNoteOldLeaf oldNote ctx.owner) index with
      | error e =>
        have ht : (update_note eng ctx index root oldNote newNote).2
            = [ExtCall.verifyLeaf (updateNoteSeeds ctx) root
                (updateNoteOldLeaf oldNote ctx.owner) index] := by
          simp [update_note, hEq, hV]
        rw [ht] at hd
        simp at hd
      | ok u =>
        cases u
        cases hEm : eng.emitResult (updateNoteLog ctx newNote).serialize with
        | error e =>
          have ht : (update_note eng ctx index root oldNote newNote).2
              = [ExtCall.verifyLeaf (updateNoteSeeds ctx) root
                  (updateNoteOldLeaf oldNote ctx.owner) index,
                 ExtCall.emit (updateNoteLog ctx newNote).serialize] := by
            simp [update_note, hEq, hV, hEm]
          rw [ht] at hd
          simp at hd
          exact ⟨updateNoteLog ctx newNote, hd, rfl⟩
        | ok v =>
          cases v
          have ht : (update_note eng ctx index root oldNote newNote).2
              = [ExtCall.verifyLeaf (updateNoteSeeds ctx) root
                  (updateNoteOldLeaf oldNote ctx.owner) index,
                 ExtCall.emit (updateNoteLog ctx newNote).serialize,
                 ExtCall.replaceLeaf ctx.treeAuthority (updateNoteSeeds ctx) root
                   (updateNoteOldLeaf oldNote ctx.owner)
                   (updateNoteNewLeaf newNote ctx.owner) index] := by
            cases hR : eng.replaceResult root (updateNoteOldLeaf oldNote ctx.owner)
                (updateNoteNewLeaf newNote ctx.owner) index with
            | error e2 => simp [update_note, hEq, hV, hEm, hR]
            | ok w => cases w; simp [update_note, hEq, hV, hEm, hR]
          rw [ht] at hd
          simp at hd
          exact ⟨updateNoteLog ctx newNote, hd, rfl⟩

/-- Witness for claim C10 on a concrete emitted entry of a successful append. -/
theorem emitted_entries_self_verifying_witness :
    ExtCall.emit (appendNoteLog ctx0 note1).serialize
        ∈ (append_note engineAllOk ctx0 note1).2 ∧
    ∃ nl : NoteLog, (appendNoteLog ctx0 note1).serialize = NoteLog.serialize nl ∧
      nl.leaf_node = keccakHashv [nl.note, nl.owner] := by
  have ht : (append_note engineAllOk ctx0 note1).2
      = [ExtCall.emit (appendNoteLog ctx0 note1).serialize,
         ExtCall.appendLeaf ctx0.treeAuthority (appendNoteSeeds ctx0)
           (appendNoteLeaf note1 ctx0.owner)] := rfl
  have hmem : ExtCall.emit (appendNoteLog ctx0 note1).serialize
      ∈ (append_note engineAllOk ctx0 note1).2 := by
    rw [ht]
    exact List.mem_cons_self _ _
  exact ⟨hmem,
    (emitted_entries_self_verifying engineAllOk ctx0 note1 0 root0 note0 note1
      ((appendNoteLog ctx0 note1).serialize)).1 hmem⟩

end CompressedNotes
